import Mathlib

/-!
Verification of the bank-statement analysis engine (`BankAnalyzer` in
`bank-statement-analyzer.tsx`) against its specification.

The engine is three pure passes over a transaction list:
pattern detection (`analyzeTransactionPatterns`), fraud screening
(`detectFraudIndicators`) and opportunity scoring
(`analyzeBusinessOpportunities`).  We embed each pass as a Lean function
over a `Transaction` record and prove the specification's properties.

Modelling conventions:
* JavaScript numbers (amounts, balances, scores) are modelled as `ℚ`.
* A `Date` value is its epoch-millisecond timestamp, an `Int`.
  `toISOString().slice(0, 13)` — the velocity bucket key — identifies two
  instants exactly when they fall in the same UTC hour, i.e. when their
  timestamps have equal floor-division by 3600000; we use that integer as
  the key.  `getHours()` depends on the host timezone, so the fraud pass is
  parametrised by an arbitrary offset function `tzoff : Int → Int` giving
  the local-time offset in minutes at a given instant.
* lodash `_.chain(x).groupBy(k).filter(p).value()` produces an **array**
  of the groups passing `p` (lodash `filter` over an object collection
  returns an array of its values, dropping the keys).  We model the result
  as a `List (List Transaction)`; the JS-object view of that array (whose
  own keys are the index strings "0", "1", …) is recovered by `objOf`.
* `_.mean []` is `NaN`, `_.max []` is `undefined`, and `0/0` is `NaN`;
  every such non-number compares `false` against any threshold.  We model
  these aggregates as `Option ℚ` with `none` for the non-number results,
  and `optGT` for the JS `>` comparison against a threshold.
-/

/-- A transaction record as consumed by `BankAnalyzer`: epoch-millisecond
timestamp, amount, type string ("Credit" / "Debit" / other), channel string
and running balance. -/
structure Transaction where
  date : Int
  amount : ℚ
  type : String
  channel : String
  balance : ℚ
deriving DecidableEq, Repr

/-- `fraudThresholds.velocityLimit` from the constructor. -/
def velocityLimit : Nat := 5

/-- `fraudThresholds.largeTransactionThreshold` from the constructor
(computed but referenced by no rule). -/
def largeTransactionThreshold : ℚ := 500000

/-- `fraudThresholds.suspiciousTimeRange.start` from the constructor. -/
def suspiciousStart : Int := 23

/-- `fraudThresholds.suspiciousTimeRange.end` from the constructor. -/
def suspiciousEnd : Int := 4

/-- lodash `groupBy` followed by taking the groups in some key order:
one group per distinct key, each group being the input's elements with
that key, in input order. -/
def groupsBy {κ : Type} [DecidableEq κ] (key : Transaction → κ)
    (l : List Transaction) : List (List Transaction) :=
  ((l.map key).dedup).map (fun k => l.filter (fun t => decide (key t = k)))

/-- `this.transactions.filter(t => t.type === 'Credit')`. -/
def credits (l : List Transaction) : List Transaction :=
  l.filter (fun t => decide (t.type = "Credit"))

/-- `this.transactions.filter(t => t.type === 'Debit')`. -/
def debits (l : List Transaction) : List Transaction :=
  l.filter (fun t => decide (t.type = "Debit"))

/-- `regularIncome`: credit groups by amount, kept when `length >= 3`. -/
def regularIncome (l : List Transaction) : List (List Transaction) :=
  (groupsBy Transaction.amount (credits l)).filter (fun g => decide (3 ≤ g.length))

/-- `recurringExpenses`: debit groups by amount, kept when `length >= 2`. -/
def recurringExpenses (l : List Transaction) : List (List Transaction) :=
  (groupsBy Transaction.amount (debits l)).filter (fun g => decide (2 ≤ g.length))

/-- The result object of `analyzeTransactionPatterns`. -/
structure Patterns where
  regularIncome : List (List Transaction)
  recurringExpenses : List (List Transaction)
deriving DecidableEq, Repr

/-- `analyzeTransactionPatterns()`. -/
def analyzeTransactionPatterns (l : List Transaction) : Patterns :=
  { regularIncome := regularIncome l, recurringExpenses := recurringExpenses l }

/-- The velocity bucket key `new Date(t.date).toISOString().slice(0, 13)`:
two transactions share that string exactly when they share the UTC hour,
i.e. the floor of the timestamp over 3600000 ms. -/
def hourKey (t : Transaction) : Int :=
  t.date.fdiv 3600000

/-- The hour bucket for key `k`: all of `l`'s transactions in that hour. -/
def bucket (l : List Transaction) (k : Int) : List Transaction :=
  l.filter (fun t => decide (hourKey t = k))

/-- `highVelocity`: hour buckets kept when `length > velocityLimit`. -/
def highVelocity (l : List Transaction) : List (List Transaction) :=
  (groupsBy hourKey l).filter (fun g => decide (velocityLimit < g.length))

/-- `new Date(t.date).getHours()` under the host timezone-offset function
`tzoff` (minutes of offset at a given instant): the hour, in `[0, 24)`, of
the local-time instant. -/
def localHour (tzoff : Int → Int) (t : Transaction) : Int :=
  ((t.date + tzoff t.date * 60000).fdiv 3600000) % 24

/-- The off-hours predicate
`hour >= suspiciousTimeRange.start || hour <= suspiciousTimeRange.end`. -/
def offHours (tzoff : Int → Int) (t : Transaction) : Bool :=
  decide (suspiciousStart ≤ localHour tzoff t) || decide (localHour tzoff t ≤ suspiciousEnd)

/-- `unusualTiming`: the transactions satisfying the off-hours predicate. -/
def unusualTiming (tzoff : Int → Int) (l : List Transaction) : List Transaction :=
  l.filter (offHours tzoff)

/-- The result object of `detectFraudIndicators`. -/
structure FraudIndicators where
  highVelocity : List (List Transaction)
  unusualTiming : List Transaction
deriving DecidableEq, Repr

/-- `detectFraudIndicators()`. -/
def detectFraudIndicators (tzoff : Int → Int) (l : List Transaction) : FraudIndicators :=
  { highVelocity := highVelocity l, unusualTiming := unusualTiming tzoff l }

/-- `digitalChannels = ['Net Banking Transfer', 'UPI', 'Card']`. -/
def digitalChannels : List String :=
  ["Net Banking Transfer", "UPI", "Card"]

/-- Whether a transaction's channel is one of the digital channels. -/
def isDigital (t : Transaction) : Bool :=
  digitalChannels.contains t.channel

/-- `digitalTransactions`: the digital-channel count over the total count.
On an empty list JS computes `0/0 = NaN`, modelled as `none`. -/
def digitalShare (l : List Transaction) : Option ℚ :=
  if l.length = 0 then none
  else some ((l.countP isDigital : ℚ) / (l.length : ℚ))

/-- `_.mean(this.transactions.map(t => t.balance))`: the sum over the
count; `NaN` (here `none`) on an empty list. -/
def meanBalance (l : List Transaction) : Option ℚ :=
  if l.length = 0 then none
  else some ((l.map Transaction.balance).sum / (l.length : ℚ))

/-- `_.max` over a list of numbers: the running maximum, `undefined`
(here `none`) on an empty list. -/
def jsMax (xs : List ℚ) : Option ℚ :=
  xs.foldl (fun acc x => some (match acc with | none => x | some m => max m x)) none

/-- `_.max(this.transactions.map(t => t.balance))`. -/
def maxBalance (l : List Transaction) : Option ℚ :=
  jsMax (l.map Transaction.balance)

/-- JS `>` between a possibly-non-number value and a threshold: `NaN` and
`undefined` compare `false`. -/
def optGT (o : Option ℚ) (c : ℚ) : Bool :=
  match o with
  | none => false
  | some q => decide (c < q)

/-- A cross-sell recommendation as pushed by `analyzeBusinessOpportunities`. -/
structure CrossSellRec where
  product : String
  confidence : ℚ
  reasoning : String
deriving DecidableEq, Repr

/-- An up-sell recommendation as pushed by `analyzeBusinessOpportunities`. -/
structure UpSellRec where
  product : String
  eligibility : ℚ
  justification : String
deriving DecidableEq, Repr

/-- The recommendation pushed when the digital-share rule fires. -/
def premiumCardRec : CrossSellRec :=
  { product := "Premium Credit Card", confidence := 8/10,
    reasoning := "High digital transaction usage indicates comfort with cards" }

/-- The recommendation pushed when the average-balance rule fires. -/
def mutualFundRec : CrossSellRec :=
  { product := "Mutual Fund Investment", confidence := 75/100,
    reasoning := "Maintains healthy average balance" }

/-- The recommendation pushed when the max-balance rule fires. -/
def premiumAccountRec : UpSellRec :=
  { product := "Premium Banking Account", eligibility := 9/10,
    justification := "High value transactions and balance maintenance" }

/-- The result object of `analyzeBusinessOpportunities`. -/
structure Opportunities where
  crossSell : List CrossSellRec
  upSell : List UpSellRec
deriving DecidableEq, Repr

/-- `analyzeBusinessOpportunities()`: the three guarded pushes, in source
order. -/
def analyzeBusinessOpportunities (l : List Transaction) : Opportunities :=
  { crossSell :=
      (if optGT (digitalShare l) (7/10) then [premiumCardRec] else []) ++
      (if optGT (meanBalance l) 100000 then [mutualFundRec] else []),
    upSell :=
      if optGT (maxBalance l) largeTransactionThreshold then [premiumAccountRec] else [] }

/-- The assembled result `{patterns, fraudIndicators, opportunities}`. -/
structure AnalysisResult where
  patterns : Patterns
  fraudIndicators : FraudIndicators
  opportunities : Opportunities
deriving DecidableEq, Repr

/-- The orchestrator: all three passes over one transaction list. -/
def analyze (tzoff : Int → Int) (l : List Transaction) : AnalysisResult :=
  { patterns := analyzeTransactionPatterns l,
    fraudIndicators := detectFraudIndicators tzoff l,
    opportunities := analyzeBusinessOpportunities l }

/-- The JS-object view of a lodash-filtered array: its own enumerable keys
are the decimal index strings "0", "1", …, each paired with the element
there.  Retrieval by key is `List.lookup` on this view. -/
def objOf (gs : List (List Transaction)) : List (String × List Transaction) :=
  gs.enum.map (fun p => (toString p.1, p.2))

/-- Fixture: a credit transaction at a given timestamp and amount, on the
UPI channel with balance 150000. -/
def cT (d : Int) (a : ℚ) : Transaction :=
  { date := d, amount := a, type := "Credit", channel := "UPI", balance := 150000 }

/-- Fixture: a debit transaction at a given timestamp and amount, on the
Card channel with balance 150000. -/
def dT (d : Int) (a : ℚ) : Transaction :=
  { date := d, amount := a, type := "Debit", channel := "Card", balance := 150000 }

/-- Fixture: the specification's pattern scenario — three credits of
amount 50000 on three different days, one debit amount repeated twice. -/
def L6 : List Transaction :=
  [cT 0 50000, cT 86400000 50000, cT 172800000 50000, dT 1000 1200, dT 2000 1200]

/-- Fixture: the credit group of `L6`. -/
def gInc : List Transaction :=
  [cT 0 50000, cT 86400000 50000, cT 172800000 50000]

/-- Fixture: the debit group of `L6`. -/
def gExp : List Transaction :=
  [dT 1000 1200, dT 2000 1200]

/-- Fixture: the all-zero timezone-offset function (a UTC host). -/
def tz0 : Int → Int := fun _ => 0

/-- A member of `groupsBy` is the filter of the input at some key. -/
lemma exists_key_of_mem_groupsBy {κ : Type} [DecidableEq κ] {key : Transaction → κ}
    {l : List Transaction} {g : List Transaction} (h : g ∈ groupsBy key l) :
    ∃ k, g = l.filter (fun t => decide (key t = k)) := by
  simp only [groupsBy, List.mem_map] at h
  obtain ⟨k, -, rfl⟩ := h
  exact ⟨k, rfl⟩

/-- C1: every group in `regularIncome` consists only of Credit
transactions of one shared amount with at least 3 members, and every group
in `recurringExpenses` consists only of Debit transactions of one shared
amount with at least 2 members; no group below its threshold appears. -/
theorem spec_c1 (l : List Transaction) :
    (∀ g ∈ regularIncome l,
      (∀ t ∈ g, t.type = "Credit") ∧ (∃ a, ∀ t ∈ g, t.amount = a) ∧ 3 ≤ g.length) ∧
    (∀ g ∈ recurringExpenses l,
      (∀ t ∈ g, t.type = "Debit") ∧ (∃ a, ∀ t ∈ g, t.amount = a) ∧ 2 ≤ g.length) := by
  constructor
  · intro g hg
    rw [regularIncome, List.mem_filter] at hg
    obtain ⟨hmem, hlen⟩ := hg
    obtain ⟨k, rfl⟩ := exists_key_of_mem_groupsBy hmem
    refine ⟨?_, ⟨k, ?_⟩, by simpa using hlen⟩
    · intro t ht
      have h1 := (List.mem_filter.1 ht).1
      simpa using (List.mem_filter.1 h1).2
    · intro t ht
      simpa using (List.mem_filter.1 ht).2
  · intro g hg
    rw [recurringExpenses, List.mem_filter] at hg
    obtain ⟨hmem, hlen⟩ := hg
    obtain ⟨k, rfl⟩ := exists_key_of_mem_groupsBy hmem
    refine ⟨?_, ⟨k, ?_⟩, by simpa using hlen⟩
    · intro t ht
      have h1 := (List.mem_filter.1 ht).1
      simpa using (List.mem_filter.1 h1).2
    · intro t ht
      simpa using (List.mem_filter.1 ht).2

/-- C1 witness: on the scenario list the credit group of three 50000
credits is a regular-income group, and the theorem yields its size bound
and a member's Credit type. -/
theorem spec_c1_witness :
    gInc ∈ regularIncome L6 ∧ 3 ≤ gInc.length ∧ (cT 0 50000).type = "Credit" :=
  ⟨by decide, ((spec_c1 L6).1 gInc (by decide)).2.2,
    ((spec_c1 L6).1 gInc (by decide)).1 (cT 0 50000) (by decide)⟩

/-- C2: on the empty transaction list the assembled result is empty and
well-formed, and the digital-share, mean-balance and max-balance
predicates evaluate to "rule does not fire" (their aggregates are the
non-number results, which compare false) rather than failing. -/
theorem spec_c2 (tzoff : Int → Int) :
    analyze tzoff [] =
      { patterns := { regularIncome := [], recurringExpenses := [] },
        fraudIndicators := { highVelocity := [], unusualTiming := [] },
        opportunities := { crossSell := [], upSell := [] } } ∧
    digitalShare [] = none ∧ meanBalance [] = none ∧ maxBalance [] = none ∧
    optGT (digitalShare []) (7/10) = false ∧
    optGT (meanBalance []) 100000 = false ∧
    optGT (maxBalance []) largeTransactionThreshold = false :=
  ⟨rfl, rfl, rfl, rfl, rfl, rfl, rfl⟩

/-- Fixture: six transactions inside hour bucket 0 and one in bucket 1. -/
def LVel : List Transaction :=
  [dT 0 10, dT 60000 20, dT 120000 30, dT 180000 40, dT 240000 50, dT 300000 60,
   dT 3600000 70]

/-- C3: a bucket is in `highVelocity` iff its size strictly exceeds 5;
every flagged group is an entire hour bucket of size above 5 whose members
all share one truncated-to-hour timestamp. -/
theorem spec_c3 (l : List Transaction) (k : Int) :
    (bucket l k ∈ highVelocity l ↔ 5 < (bucket l k).length) ∧
    (∀ g ∈ highVelocity l,
      (∃ k₂, g = bucket l k₂) ∧ 5 < g.length ∧
      ∀ t₁ ∈ g, ∀ t₂ ∈ g, hourKey t₁ = hourKey t₂) := by
  constructor
  · constructor
    · intro h
      have := (List.mem_filter.1 h).2
      simpa [velocityLimit] using this
    · intro hlen
      rw [highVelocity, List.mem_filter]
      refine ⟨?_, by simpa [velocityLimit] using hlen⟩
      have hne : bucket l k ≠ [] := by
        intro hnil
        rw [hnil] at hlen
        simp at hlen
      obtain ⟨t, ht⟩ := List.exists_mem_of_ne_nil _ hne
      have htl : t ∈ l := (List.mem_filter.1 ht).1
      have htk : hourKey t = k := by simpa using (List.mem_filter.1 ht).2
      rw [groupsBy]
      refine List.mem_map.2 ⟨k, ?_, rfl⟩
      rw [List.mem_dedup]
      exact List.mem_map.2 ⟨t, htl, htk⟩
  · intro g hg
    obtain ⟨hmem, hlen⟩ := List.mem_filter.1 hg
    obtain ⟨k₂, rfl⟩ := exists_key_of_mem_groupsBy hmem
    refine ⟨⟨k₂, rfl⟩, by simpa [velocityLimit] using hlen, ?_⟩
    intro t₁ h₁ t₂ h₂
    have e₁ : hourKey t₁ = k₂ := by simpa using (List.mem_filter.1 h₁).2
    have e₂ : hourKey t₂ = k₂ := by simpa using (List.mem_filter.1 h₂).2
    rw [e₁, e₂]

/-- C3 witness: six same-hour transactions form a flagged bucket; the
theorem reports the whole bucket and the shared hour of two members. -/
theorem spec_c3_witness :
    5 < (bucket LVel 0).length ∧ bucket LVel 0 ∈ highVelocity LVel ∧
    hourKey (dT 0 10) = hourKey (dT 300000 60) :=
  ⟨by decide, (spec_c3 LVel 0).1.mpr (by decide),
    ((spec_c3 LVel 0).2 (bucket LVel 0) ((spec_c3 LVel 0).1.mpr (by decide))).2.2
      (dT 0 10) (by decide) (dT 300000 60) (by decide)⟩

/-- The local hour is non-negative. -/
lemma localHour_nonneg (tzoff : Int → Int) (t : Transaction) :
    0 ≤ localHour tzoff t :=
  Int.emod_nonneg _ (by norm_num)

/-- The local hour is below 24. -/
lemma localHour_lt (tzoff : Int → Int) (t : Transaction) :
    localHour tzoff t < 24 :=
  Int.emod_lt_of_pos _ (by norm_num)

/-- C4: a transaction is in `unusualTiming` iff it is in the input and its
local hour lies in the wraparound window {23, 0, 1, 2, 3, 4}; transactions
with local hour in {5, …, 22} never appear. -/
theorem spec_c4 (tzoff : Int → Int) (l : List Transaction) (t : Transaction) :
    (t ∈ unusualTiming tzoff l ↔
      t ∈ l ∧ localHour tzoff t ∈ ([23, 0, 1, 2, 3, 4] : List Int)) ∧
    (5 ≤ localHour tzoff t → localHour tzoff t ≤ 22 → t ∉ unusualTiming tzoff l) := by
  have h0 := localHour_nonneg tzoff t
  have h24 := localHour_lt tzoff t
  have hiff : t ∈ unusualTiming tzoff l ↔
      t ∈ l ∧ localHour tzoff t ∈ ([23, 0, 1, 2, 3, 4] : List Int) := by
    rw [unusualTiming, List.mem_filter, offHours, suspiciousStart, suspiciousEnd]
    simp only [Bool.or_eq_true, decide_eq_true_eq, List.mem_cons,
      List.mem_singleton, List.not_mem_nil, or_false]
    constructor
    · rintro ⟨hl, hh⟩
      exact ⟨hl, by omega⟩
    · rintro ⟨hl, hh⟩
      exact ⟨hl, by omega⟩
  refine ⟨hiff, ?_⟩
  intro h5 h22 hmem
  have := (hiff.1 hmem).2
  simp only [List.mem_cons, List.mem_singleton, List.not_mem_nil, or_false] at this
  omega

/-- Fixture: one midnight-hour transaction and one noon transaction. -/
def L4 : List Transaction :=
  [dT 0 10, dT 43200000 20]

/-- C4 witness: under a UTC host the hour-0 transaction is flagged and the
hour-12 transaction is not. -/
theorem spec_c4_witness :
    dT 0 10 ∈ unusualTiming tz0 L4 ∧ dT 43200000 20 ∉ unusualTiming tz0 L4 :=
  ⟨(spec_c4 tz0 L4 (dT 0 10)).1.mpr ⟨by decide, by decide⟩,
    (spec_c4 tz0 L4 (dT 43200000 20)).2 (by decide) (by decide)⟩

/-- Folding the running-maximum step from a `some` accumulator computes
the plain `max` fold. -/
lemma jsMax_foldl_some (xs : List ℚ) (m : ℚ) :
    xs.foldl (fun acc x => some (match acc with | none => x | some m => max m x))
      (some m) = some (xs.foldl max m) := by
  induction xs generalizing m with
  | nil => rfl
  | cons x xs ih => simpa using ih (max m x)

/-- `jsMax` of a nonempty list is the `max` fold of its elements. -/
lemma jsMax_cons (x : ℚ) (xs : List ℚ) :
    jsMax (x :: xs) = some (xs.foldl max x) := by
  rw [jsMax, List.foldl_cons]
  exact jsMax_foldl_some xs x

/-- A threshold is below a `max` fold iff it is below the seed or below
some element. -/
lemma lt_foldl_max (c : ℚ) (xs : List ℚ) (m : ℚ) :
    c < xs.foldl max m ↔ c < m ∨ ∃ x ∈ xs, c < x := by
  induction xs generalizing m with
  | nil => simp
  | cons y ys ih =>
    rw [List.foldl_cons, ih]
    simp only [lt_max_iff, List.mem_cons]
    constructor
    · rintro (⟨h | h⟩ | ⟨x, hx, h⟩)
      · exact Or.inl h
      · exact Or.inr ⟨y, Or.inl rfl, h⟩
      · exact Or.inr ⟨x, Or.inr hx, h⟩
    · rintro (h | ⟨x, hx | hx, h⟩)
      · exact Or.inl (Or.inl h)
      · exact Or.inl (Or.inr (hx ▸ h))
      · exact Or.inr ⟨x, hx, h⟩

/-- The JS comparison of `jsMax` against a threshold decides "some
element exceeds the threshold". -/
lemma optGT_jsMax (xs : List ℚ) (c : ℚ) :
    optGT (jsMax xs) c = decide (∃ x ∈ xs, c < x) := by
  cases xs with
  | nil => simp [jsMax, optGT]
  | cons x xs =>
    rw [jsMax_cons, optGT]
    simp only [decide_eq_decide, lt_foldl_max, List.mem_cons]
    constructor
    · rintro (h | ⟨y, hy, h⟩)
      · exact ⟨x, Or.inl rfl, h⟩
      · exact ⟨y, Or.inr hy, h⟩
    · rintro ⟨y, hy | hy, h⟩
      · exact Or.inl (hy ▸ h)
      · exact Or.inr ⟨y, hy, h⟩

/-- The digital-share predicate agrees with the total-division formulation
(`0/0 = 0` in `ℚ`, which also fails the threshold, matching `NaN`). -/
lemma optGT_digitalShare (l : List Transaction) :
    optGT (digitalShare l) (7/10) =
      decide ((7 : ℚ)/10 < (l.countP isDigital : ℚ) / (l.length : ℚ)) := by
  rw [digitalShare]
  rcases Nat.eq_zero_or_pos l.length with h | h
  · rw [h, Nat.cast_zero, div_zero, if_pos rfl]
    exact (decide_eq_false (by norm_num)).symm
  · rw [if_neg (Nat.pos_iff_ne_zero.1 h)]
    rfl

/-- The mean-balance predicate agrees with the total-division
formulation. -/
lemma optGT_meanBalance (l : List Transaction) :
    optGT (meanBalance l) 100000 =
      decide ((100000 : ℚ) < (l.map Transaction.balance).sum / (l.length : ℚ)) := by
  rw [meanBalance]
  rcases Nat.eq_zero_or_pos l.length with h | h
  · rw [h, Nat.cast_zero, div_zero, if_pos rfl]
    exact (decide_eq_false (by norm_num)).symm
  · rw [if_neg (Nat.pos_iff_ne_zero.1 h)]
    rfl

/-- C5: each opportunity rule contributes exactly its fixed recommendation
when its predicate holds and nothing otherwise — the digital-share rule
pushes the premium-card recommendation (confidence 0.8), the mean-balance
rule the investment recommendation (confidence 0.75), the max-balance rule
the premium-account recommendation (eligibility 0.9) — and the rules are
independent, with no short-circuiting between them. -/
theorem spec_c5 (l : List Transaction) :
    (analyzeBusinessOpportunities l).crossSell =
      (if (7 : ℚ)/10 < (l.countP isDigital : ℚ) / (l.length : ℚ)
        then [premiumCardRec] else []) ++
      (if (100000 : ℚ) < (l.map Transaction.balance).sum / (l.length : ℚ)
        then [mutualFundRec] else []) ∧
    ((analyzeBusinessOpportunities l).upSell =
      if ∃ t ∈ l, (500000 : ℚ) < t.balance then [premiumAccountRec] else []) ∧
    premiumCardRec.confidence = 8/10 ∧ mutualFundRec.confidence = 75/100 ∧
    premiumAccountRec.eligibility = 9/10 := by
  refine ⟨?_, ?_, rfl, rfl, rfl⟩
  · rw [analyzeBusinessOpportunities]
    rw [optGT_digitalShare, optGT_meanBalance]
    simp only [decide_eq_true_eq]
  · have hm : (∃ x ∈ l.map Transaction.balance, (500000 : ℚ) < x) ↔
        (∃ t ∈ l, (500000 : ℚ) < t.balance) := by
      constructor
      · rintro ⟨x, hx, hlt⟩
        obtain ⟨t, ht, rfl⟩ := List.mem_map.1 hx
        exact ⟨t, ht, hlt⟩
      · rintro ⟨t, ht, hlt⟩
        exact ⟨t.balance, List.mem_map.2 ⟨t, ht, rfl⟩, hlt⟩
    rw [analyzeBusinessOpportunities]
    show (if optGT (maxBalance l) largeTransactionThreshold
        then [premiumAccountRec] else []) = _
    rw [maxBalance, optGT_jsMax, largeTransactionThreshold]
    by_cases h : ∃ t ∈ l, (500000 : ℚ) < t.balance
    · rw [if_pos h, if_pos (decide_eq_true (hm.2 h))]
    · rw [if_neg h, if_neg (by simpa [hm] using h)]

/-- C6 counterexample: on the scenario list each pattern output has
exactly one qualifying entry, yet nothing is retrievable under the
amount keys 50000 / 1200 — the lodash `filter` step returns an array, so
the single entries sit under the index key "0", not under the amounts. -/
theorem spec_c6_counterexample :
    (regularIncome L6).length = 1 ∧ (recurringExpenses L6).length = 1 ∧
    (objOf (regularIncome L6)).lookup "50000" = none ∧
    (objOf (recurringExpenses L6)).lookup "1200" = none ∧
    (objOf (regularIncome L6)).map Prod.fst = ["0"] ∧
    (objOf (recurringExpenses L6)).map Prod.fst = ["0"] := by
  refine ⟨by decide, by decide, by decide, by decide, by decide, by decide⟩

/-- C6 amended: the pattern outputs are arrays of the qualifying groups
(index-keyed, not amount-keyed); on the scenario input `regularIncome`
has exactly one entry, at index key "0", holding the three credit members
of amount 50000, and `recurringExpenses` exactly one entry, at index key
"0", holding the two debit members of amount 1200. -/
theorem spec_c6 :
    regularIncome L6 = [gInc] ∧ recurringExpenses L6 = [gExp] ∧
    objOf (regularIncome L6) = [("0", gInc)] ∧
    objOf (recurringExpenses L6) = [("0", gExp)] ∧
    gInc.length = 3 ∧ gExp.length = 2 ∧
    gInc.countP (fun t => decide (t.amount = 50000)) = 3 ∧
    gExp.countP (fun t => decide (t.amount = 1200)) = 2 := by
  refine ⟨by decide, by decide, by decide, by decide, rfl, rfl, by decide, by decide⟩

/-- Fixture: eight transactions, four in the last 25 minutes of hour
bucket 0 and four in the first 15 minutes of hour bucket 1 — all inside
one 40-minute span crossing the hour boundary. -/
def LSplit : List Transaction :=
  [dT 2100000 10, dT 2400000 20, dT 2700000 30, dT 3000000 40,
   dT 3700000 50, dT 3900000 60, dT 4200000 70, dT 4500000 80]

/-- C7: when every hour bucket holds at most 5 transactions,
`highVelocity` is empty — the check is an absolute per-bucket threshold,
so bursts split across adjacent buckets are not flagged. -/
theorem spec_c7 (l : List Transaction)
    (h : ∀ t ∈ l, l.countP (fun u => decide (hourKey u = hourKey t)) ≤ 5) :
    highVelocity l = [] := by
  rw [highVelocity, List.filter_eq_nil_iff]
  intro g hg
  obtain ⟨k, rfl⟩ := exists_key_of_mem_groupsBy hg
  simp only [velocityLimit, decide_eq_true_eq, not_lt]
  rw [← List.countP_eq_length_filter]
  by_cases hk : ∃ t ∈ l, hourKey t = k
  · obtain ⟨t, htl, htk⟩ := hk
    have := h t htl
    rw [htk] at this
    exact this
  · have : l.countP (fun u => decide (hourKey u = k)) = 0 := by
      rw [List.countP_eq_zero]
      intro t htl
      simp only [decide_eq_true_eq]
      exact fun htk => hk ⟨t, htl, htk⟩
    omega

/-- C7 witness: the 4/4 split burst has every bucket at size 4, and the
theorem yields an empty `highVelocity`; one bucket's count is checked
explicitly. -/
theorem spec_c7_witness :
    highVelocity LSplit = [] ∧
    LSplit.countP (fun u => decide (hourKey u = hourKey (dT 2100000 10))) ≤ 5 :=
  ⟨spec_c7 LSplit (by decide), by decide⟩

/-- A fold by a right-commutative step is invariant under permutation of
the list. -/
lemma foldl_eq_of_comm {α β : Type} {f : β → α → β}
    (hf : ∀ b x y, f (f b x) y = f (f b y) x) :
    ∀ {l1 l2 : List α}, l1.Perm l2 → ∀ b, l1.foldl f b = l2.foldl f b := by
  intro l1 l2 p
  induction p with
  | nil => intro b; rfl
  | cons x p ih =>
    intro b
    simp only [List.foldl_cons]
    exact ih _
  | swap x y l =>
    intro b
    simp only [List.foldl_cons]
    rw [hf]
  | trans p q ih1 ih2 =>
    intro b
    rw [ih1 b, ih2 b]

/-- `jsMax` is invariant under permutation. -/
lemma jsMax_perm {xs ys : List ℚ} (h : xs.Perm ys) : jsMax xs = jsMax ys := by
  refine foldl_eq_of_comm ?_ h none
  intro b x y
  cases b with
  | none => simp [max_comm]
  | some m => simp [sup_right_comm]

/-- The opportunity pass is invariant under permutation of the input. -/
lemma opportunities_perm {l1 l2 : List Transaction} (h : l1.Perm l2) :
    analyzeBusinessOpportunities l1 = analyzeBusinessOpportunities l2 := by
  have hc : l1.countP isDigital = l2.countP isDigital := h.countP_eq _
  have hl : l1.length = l2.length := h.length_eq
  have hs : (l1.map Transaction.balance).sum = (l2.map Transaction.balance).sum :=
    (h.map _).sum_eq
  have hm : maxBalance l1 = maxBalance l2 := jsMax_perm (h.map _)
  rw [analyzeBusinessOpportunities, analyzeBusinessOpportunities,
    digitalShare, digitalShare, meanBalance, meanBalance, hc, hl, hs, hm]

/-- Every group of `groupsBy` over a list has a permuted counterpart in
`groupsBy` over any permutation of that list. -/
lemma groupsBy_perm {κ : Type} [DecidableEq κ] (key : Transaction → κ)
    {l1 l2 : List Transaction} (p : l1.Perm l2) :
    ∀ g ∈ groupsBy key l1, ∃ g2 ∈ groupsBy key l2, g.Perm g2 := by
  intro g hg
  rw [groupsBy, List.mem_map] at hg
  obtain ⟨k, hk, rfl⟩ := hg
  refine ⟨l2.filter (fun t => decide (key t = k)), ?_, p.filter _⟩
  rw [groupsBy, List.mem_map]
  refine ⟨k, ?_, rfl⟩
  rw [List.mem_dedup] at hk ⊢
  exact ((p.map key).mem_iff).1 hk

/-- Size-filtered groups also have permuted counterparts across a
permutation of the input. -/
lemma sized_groups_perm {κ : Type} [DecidableEq κ] (key : Transaction → κ)
    (P : Nat → Bool) {l1 l2 : List Transaction} (p : l1.Perm l2) :
    ∀ g ∈ (groupsBy key l1).filter (fun g => P g.length),
      ∃ g2 ∈ (groupsBy key l2).filter (fun g => P g.length), g.Perm g2 := by
  intro g hg
  obtain ⟨hmem, hP⟩ := List.mem_filter.1 hg
  obtain ⟨g2, hg2, hperm⟩ := groupsBy_perm key p g hmem
  refine ⟨g2, List.mem_filter.2 ⟨hg2, ?_⟩, hperm⟩
  rwa [← hperm.length_eq]

/-- C8: every analysis is order-insensitive — permuting the input yields
the same qualifying groups (up to permutation of each group), the same
flagged velocity buckets, a permutation of `unusualTiming`, and identical
opportunity recommendations. -/
theorem spec_c8 (tzoff : Int → Int) (l1 l2 : List Transaction) (h : l1.Perm l2) :
    (∀ g ∈ regularIncome l1, ∃ g2 ∈ regularIncome l2, g.Perm g2) ∧
    (∀ g ∈ regularIncome l2, ∃ g2 ∈ regularIncome l1, g.Perm g2) ∧
    (∀ g ∈ recurringExpenses l1, ∃ g2 ∈ recurringExpenses l2, g.Perm g2) ∧
    (∀ g ∈ recurringExpenses l2, ∃ g2 ∈ recurringExpenses l1, g.Perm g2) ∧
    (∀ g ∈ highVelocity l1, ∃ g2 ∈ highVelocity l2, g.Perm g2) ∧
    (∀ g ∈ highVelocity l2, ∃ g2 ∈ highVelocity l1, g.Perm g2) ∧
    (unusualTiming tzoff l1).Perm (unusualTiming tzoff l2) ∧
    analyzeBusinessOpportunities l1 = analyzeBusinessOpportunities l2 :=
  ⟨sized_groups_perm Transaction.amount (fun n => decide (3 ≤ n)) (h.filter _),
    sized_groups_perm Transaction.amount (fun n => decide (3 ≤ n)) (h.symm.filter _),
    sized_groups_perm Transaction.amount (fun n => decide (2 ≤ n)) (h.filter _),
    sized_groups_perm Transaction.amount (fun n => decide (2 ≤ n)) (h.symm.filter _),
    sized_groups_perm hourKey (fun n => decide (velocityLimit < n)) h,
    sized_groups_perm hourKey (fun n => decide (velocityLimit < n)) h.symm,
    h.filter _, opportunities_perm h⟩

/-- C8 witness: swapping a two-element list leaves `unusualTiming` a
permutation of itself and the opportunities identical. -/
theorem spec_c8_witness :
    (unusualTiming tz0 [dT 0 10, dT 60000 20]).Perm
      (unusualTiming tz0 [dT 60000 20, dT 0 10]) ∧
    analyzeBusinessOpportunities [dT 0 10, dT 60000 20] =
      analyzeBusinessOpportunities [dT 60000 20, dT 0 10] :=
  ⟨(spec_c8 tz0 [dT 0 10, dT 60000 20] [dT 60000 20, dT 0 10]
      (by decide)).2.2.2.2.2.2.1,
    (spec_c8 tz0 [dT 0 10, dT 60000 20] [dT 60000 20, dT 0 10]
      (by decide)).2.2.2.2.2.2.2⟩

/-- Members of a regular-income group have type Credit. -/
lemma mem_regularIncome_type {l g : List Transaction} {t : Transaction}
    (hg : g ∈ regularIncome l) (ht : t ∈ g) : t.type = "Credit" := by
  obtain ⟨hmem, -⟩ := List.mem_filter.1 hg
  obtain ⟨k, rfl⟩ := exists_key_of_mem_groupsBy hmem
  have h1 := (List.mem_filter.1 ht).1
  simpa using (List.mem_filter.1 h1).2

/-- Members of a recurring-expense group have type Debit. -/
lemma mem_recurringExpenses_type {l g : List Transaction} {t : Transaction}
    (hg : g ∈ recurringExpenses l) (ht : t ∈ g) : t.type = "Debit" := by
  obtain ⟨hmem, -⟩ := List.mem_filter.1 hg
  obtain ⟨k, rfl⟩ := exists_key_of_mem_groupsBy hmem
  have h1 := (List.mem_filter.1 ht).1
  simpa using (List.mem_filter.1 h1).2

/-- The seed of a `max` fold is below the fold. -/
lemma le_foldl_max (xs : List ℚ) (m : ℚ) : m ≤ xs.foldl max m := by
  induction xs generalizing m with
  | nil => exact le_refl m
  | cons y ys ih => exact le_trans (le_max_left m y) (ih (max m y))

/-- C9: a transaction whose type is neither Credit nor Debit is excluded
from both pattern outputs, yet it is bucketed by the velocity heuristic,
subjected to the off-hours test, counted in the digital-share denominator
and included in the mean and max balance aggregates. -/
theorem spec_c9 (tzoff : Int → Int) (t : Transaction) (l : List Transaction)
    (hc : t.type ≠ "Credit") (hd : t.type ≠ "Debit") :
    (∀ g ∈ regularIncome (t :: l), t ∉ g) ∧
    (∀ g ∈ recurringExpenses (t :: l), t ∉ g) ∧
    t ∈ bucket (t :: l) (hourKey t) ∧
    (t ∈ unusualTiming tzoff (t :: l) ↔ offHours tzoff t = true) ∧
    digitalShare (t :: l) =
      some (((t :: l).countP isDigital : ℚ) / ((l.length + 1 : ℕ) : ℚ)) ∧
    meanBalance (t :: l) =
      some ((t.balance + (l.map Transaction.balance).sum) / ((l.length + 1 : ℕ) : ℚ)) ∧
    ∃ m, maxBalance (t :: l) = some m ∧ t.balance ≤ m := by
  refine ⟨?_, ?_, ?_, ?_, ?_, ?_, ?_⟩
  · intro g hg ht
    exact hc (mem_regularIncome_type hg ht)
  · intro g hg ht
    exact hd (mem_recurringExpenses_type hg ht)
  · exact List.mem_filter.2 ⟨List.mem_cons_self t l, by simp⟩
  · rw [unusualTiming, List.mem_filter]
    exact ⟨fun h => h.2, fun h => ⟨List.mem_cons_self t l, h⟩⟩
  · rw [digitalShare, if_neg (by simp)]
    rfl
  · rw [meanBalance, if_neg (by simp), List.map_cons, List.sum_cons]
    rfl
  · refine ⟨(l.map Transaction.balance).foldl max t.balance, ?_, le_foldl_max _ _⟩
    rw [maxBalance, List.map_cons, jsMax_cons]

/-- Fixture: a transaction of type "Transfer", neither Credit nor Debit. -/
def tX : Transaction :=
  { date := 0, amount := 500, type := "Transfer", channel := "UPI", balance := 100 }

/-- C9 witness: a Transfer transaction is bucketed by the velocity
heuristic and counted in the digital-share denominator. -/
theorem spec_c9_witness :
    tX.type ≠ "Credit" ∧ tX.type ≠ "Debit" ∧
    tX ∈ bucket [tX] (hourKey tX) ∧
    digitalShare [tX] =
      some (([tX].countP isDigital : ℚ) /
        ((List.length ([] : List Transaction) + 1 : ℕ) : ℚ)) :=
  ⟨by decide, by decide, (spec_c9 tz0 tX [] (by decide) (by decide)).2.2.1,
    (spec_c9 tz0 tX [] (by decide) (by decide)).2.2.2.2.1⟩

/-- C10: every pattern group, every flagged velocity bucket and the
`unusualTiming` list are sublists of the input — their transactions come
from the input and keep its relative order; the input itself is never
modified, all passes being pure functions of it. -/
theorem spec_c10 (tzoff : Int → Int) (l : List Transaction) :
    (∀ g ∈ regularIncome l, g.Sublist l) ∧
    (∀ g ∈ recurringExpenses l, g.Sublist l) ∧
    (∀ g ∈ highVelocity l, g.Sublist l) ∧
    (unusualTiming tzoff l).Sublist l := by
  refine ⟨?_, ?_, ?_, List.filter_sublist _⟩
  · intro g hg
    obtain ⟨hmem, -⟩ := List.mem_filter.1 hg
    obtain ⟨k, rfl⟩ := exists_key_of_mem_groupsBy hmem
    exact (List.filter_sublist _).trans (List.filter_sublist _)
  · intro g hg
    obtain ⟨hmem, -⟩ := List.mem_filter.1 hg
    obtain ⟨k, rfl⟩ := exists_key_of_mem_groupsBy hmem
    exact (List.filter_sublist _).trans (List.filter_sublist _)
  · intro g hg
    obtain ⟨hmem, -⟩ := List.mem_filter.1 hg
    obtain ⟨k, rfl⟩ := exists_key_of_mem_groupsBy hmem
    exact List.filter_sublist _

/-- C10 witness: the scenario's credit group is a regular-income group
and a sublist of the input, as is the off-hours list. -/
theorem spec_c10_witness :
    gInc ∈ regularIncome L6 ∧ gInc.Sublist L6 ∧ (unusualTiming tz0 L6).Sublist L6 :=
  ⟨by decide, (spec_c10 tz0 L6).1 gInc (by decide), (spec_c10 tz0 L6).2.2.2⟩
